import Mathlib

/-!
Verification of the `PartialSignVector` data type from
`sign_vectors/partial_sign_vectors.py`.

A partial sign vector is represented in the source by three Sage
`FrozenBitset`s (negative, zero and positive support) sharing one capacity.
We model a bitset as a `Finset Nat` and carry the shared capacity explicitly
in the `length` field; `length()` in the source returns the capacity of the
negative support.  All bit-level operations (union, intersection, set
difference, symmetric difference, complement within capacity) are translated
to the corresponding `Finset` operations.
-/

structure PartialSignVector where
  length : Nat
  negative_support : Finset Nat
  zero_support : Finset Nat
  positive_support : Finset Nat
deriving DecidableEq

/-- Modelled from the spec: the external collaborator `SignVector` (a total
sign vector with disjoint positive and negative bit-sets and implied zero
complement).  Its class code is outside this file's source; `to_sign_vector`
constructs it as `SignVector(positive_support, negative_support)`. -/
structure SignVector where
  length : Nat
  positive_support : Finset Nat
  negative_support : Finset Nat
deriving DecidableEq

/-- Modelled from the spec: a `SignVector`'s zero support is the implied
complement (within its capacity) of the union of its positive and negative
supports. -/
def SignVector.zero_support (sv : SignVector) : Finset Nat :=
  Finset.range sv.length \ (sv.positive_support ∪ sv.negative_support)

/-- The list `res` built by `__getitem__` for an in-range nonnegative index:
`[-1]`-part, `[0]`-part and `[1]`-part appended in ascending order. -/
def admissibleSigns (X : PartialSignVector) (e : Nat) : List Int :=
  (if e ∈ X.negative_support then [-1] else []) ++
    (if e ∈ X.zero_support then [0] else []) ++
      (if e ∈ X.positive_support then [1] else [])

/-- `__getitem__` on an integer index: raises `IndexError("index out of range")`
when `e >= length or e < -length`, otherwise reduces a negative index modulo
the length (Python `e %= self.length()`, i.e. `e + length` for
`-length <= e < 0`) and returns the admissible-sign list. -/
def getitem (X : PartialSignVector) (e : Int) : Except String (List Int) :=
  if (X.length : Int) ≤ e ∨ e < -(X.length : Int) then
    Except.error "index out of range"
  else if e < 0 then Except.ok (admissibleSigns X (e + (X.length : Int)).toNat)
  else Except.ok (admissibleSigns X e.toNat)

def negChars : List Char := ['-', 'n', '/', '*']
def zeroChars : List Char := ['0', 'n', 'p', '*']
def posChars : List Char := ['+', 'p', '/', '*']
def alphabet : List Char := ['-', '0', '+', 'n', 'p', '/', '*']

/-- `from_string`: position `i` belongs to a support iff the character at `i`
is in the corresponding character class (see the three generator expressions
in the source). -/
def fromChars (cs : List Char) : PartialSignVector :=
  ⟨cs.length,
    (Finset.range cs.length).filter (fun i => cs.getD i ' ' ∈ negChars),
    (Finset.range cs.length).filter (fun i => cs.getD i ' ' ∈ zeroChars),
    (Finset.range cs.length).filter (fun i => cs.getD i ' ' ∈ posChars)⟩

def from_string (s : String) : PartialSignVector := fromChars s.data

/-- `to_string(index=e)`: compares `self[e]` against the seven admissible-sign
lists; when none matches (empty candidate set) the Python function falls
through and returns `None`, modelled by `none`. -/
def to_string_at (X : PartialSignVector) (e : Nat) : Option Char :=
  if admissibleSigns X e = [-1] then some '-'
  else if admissibleSigns X e = [0] then some '0'
  else if admissibleSigns X e = [1] then some '+'
  else if admissibleSigns X e = [-1, 0] then some 'n'
  else if admissibleSigns X e = [-1, 1] then some '/'
  else if admissibleSigns X e = [0, 1] then some 'p'
  else if admissibleSigns X e = [-1, 0, 1] then some '*'
  else none

/-- Joining per-position characters: a `none` (garbled position) poisons the
whole string, as Python's `"".join` raises on a `None` element. -/
def joinChars : List (Option Char) → Option (List Char)
  | [] => some []
  | none :: _ => none
  | some c :: rest => (joinChars rest).map (fun l => c :: l)

/-- `to_string()` without an index: concatenation of the per-position codes
over `range(length)`. -/
def to_string (X : PartialSignVector) : Option String :=
  (joinChars ((List.range X.length).map (to_string_at X))).map String.mk

def determined_negative_support (X : PartialSignVector) : Finset Nat :=
  X.negative_support \ (X.positive_support ∪ X.zero_support)

def determined_zero_support (X : PartialSignVector) : Finset Nat :=
  X.zero_support \ (X.negative_support ∪ X.positive_support)

def determined_positive_support (X : PartialSignVector) : Finset Nat :=
  X.positive_support \ (X.negative_support ∪ X.zero_support)

def determined_support (X : PartialSignVector) : Finset Nat :=
  determined_negative_support X ∪ determined_zero_support X ∪
    determined_positive_support X

def undetermined_support (X : PartialSignVector) : Finset Nat :=
  X.positive_support ∩ X.negative_support ∩ X.zero_support

/-- `cardinality()`:
`2**(len - |determined| - |undetermined|) * 3**|undetermined|`. -/
def cardinality (X : PartialSignVector) : Nat :=
  2 ^ (X.length - (determined_support X).card - (undetermined_support X).card)
    * 3 ^ (undetermined_support X).card

/-- `is_sign_vector()`: `len(self) == len(self.determined_support())`. -/
def is_sign_vector (X : PartialSignVector) : Prop :=
  X.length = (determined_support X).card

instance (X : PartialSignVector) : Decidable (is_sign_vector X) :=
  inferInstanceAs (Decidable (X.length = (determined_support X).card))

/-- `to_sign_vector()`: when `is_sign_vector()` holds, returns
`SignVector(self._positive_support, self._negative_support)`.  Otherwise the
source executes `return Exception("not a sign vector")` — the exception
object is RETURNED as an ordinary value, never raised; `Sum.inr` models that
normally returned exception object. -/
def to_sign_vector (X : PartialSignVector) : SignVector ⊕ String :=
  if is_sign_vector X then
    Sum.inl ⟨X.length, X.positive_support, X.negative_support⟩
  else Sum.inr "not a sign vector"

/-- `compose(other)`.  The capacity of a Sage bitset union/intersection is the
maximum of the operands' capacities, hence the `max` for the length. -/
def compose (X Y : PartialSignVector) : PartialSignVector :=
  ⟨max X.length Y.length,
    X.negative_support ∪ (Y.negative_support ∩ X.zero_support),
    X.zero_support ∩ Y.zero_support,
    X.positive_support ∪ (Y.positive_support ∩ X.zero_support)⟩

/-- `flip_signs(indices)`: the index set is masked to `positive | negative`
and xor-ed (symmetric difference) into both the negative and the positive
support; the zero support is untouched.  (For in-range indices the resulting
capacity equals the original length.) -/
def flip_signs (X : PartialSignVector) (indices : Finset Nat) : PartialSignVector :=
  ⟨X.length,
    ((X.negative_support \ (indices ∩ (X.positive_support ∪ X.negative_support))) ∪
      ((indices ∩ (X.positive_support ∪ X.negative_support)) \ X.negative_support)),
    X.zero_support,
    ((X.positive_support \ (indices ∩ (X.positive_support ∪ X.negative_support))) ∪
      ((indices ∩ (X.positive_support ∪ X.negative_support)) \ X.positive_support))⟩

/-- `set_sign(indices, sign)`, integer-list branch (the branch `unpack` uses):
each support gains `indices` when the corresponding sign is in `sign` and
loses `indices` otherwise. -/
def set_sign (X : PartialSignVector) (indices : Finset Nat) (sign : List Int) :
    PartialSignVector :=
  ⟨X.length,
    if -1 ∈ sign then X.negative_support ∪ indices else X.negative_support \ indices,
    if 0 ∈ sign then X.zero_support ∪ indices else X.zero_support \ indices,
    if 1 ∈ sign then X.positive_support ∪ indices else X.positive_support \ indices⟩

/-- `_connecting_elements` for a `PartialSignVector` argument. -/
def connecting_elements (X Y : PartialSignVector) : Finset Nat :=
  (determined_positive_support X ∩ determined_positive_support Y) ∪
    (determined_negative_support X ∩ determined_negative_support Y)

/-- `_connecting_elements` for a `SignVector` argument. -/
def connecting_elements_sv (X : PartialSignVector) (sv : SignVector) : Finset Nat :=
  (determined_positive_support X ∩ sv.positive_support) ∪
    (determined_negative_support X ∩ sv.negative_support)

/-- `_separating_elements` for a `PartialSignVector` argument. -/
def separating_elements (X Y : PartialSignVector) : Finset Nat :=
  (determined_positive_support X ∩ determined_negative_support Y) ∪
    (determined_negative_support X ∩ determined_positive_support Y)

/-- `_separating_elements` for a `SignVector` argument. -/
def separating_elements_sv (X : PartialSignVector) (sv : SignVector) : Finset Nat :=
  (determined_positive_support X ∩ sv.negative_support) ∪
    (determined_negative_support X ∩ sv.positive_support)

/-- `is_orthogonal_to(other)` for a `PartialSignVector` argument: the
complement (within the joint capacity) of the two determined-zero supports is
tested for emptiness first; otherwise
`not (separating.isempty() or connecting.isempty())`. -/
def is_orthogonal_to (X Y : PartialSignVector) : Bool :=
  if Finset.range (max X.length Y.length) \
      (determined_zero_support X ∪ determined_zero_support Y) = ∅ then true
  else !(decide (separating_elements X Y = ∅) || decide (connecting_elements X Y = ∅))

/-- `is_orthogonal_to(other)` for a `SignVector` argument. -/
def is_orthogonal_to_sv (X : PartialSignVector) (sv : SignVector) : Bool :=
  if Finset.range (max X.length sv.length) \
      (determined_zero_support X ∪ SignVector.zero_support sv) = ∅ then true
  else !(decide (separating_elements_sv X sv = ∅) ||
          decide (connecting_elements_sv X sv = ∅))

/-- `issubset(other)`: each of the three supports is contained in the
corresponding support of `other`. -/
def issubset (X Y : PartialSignVector) : Prop :=
  X.positive_support ⊆ Y.positive_support ∧
    X.negative_support ⊆ Y.negative_support ∧
      X.zero_support ⊆ Y.zero_support

instance (X Y : PartialSignVector) : Decidable (issubset X Y) :=
  inferInstanceAs (Decidable (_ ∧ _ ∧ _))

/-- One pass of `unpack`'s main loop for a position `e`: every vector in the
accumulated set branches over its admissible signs at `e`, each branch forced
by `set_sign([e], [s])`. -/
def unpackStep (e : Nat) (res : Finset PartialSignVector) : Finset PartialSignVector :=
  res.biUnion (fun p =>
    (admissibleSigns p e).toFinset.image (fun s => set_sign p {e} [s]))

/-- The state of `unpack`'s loop after the positions `0, …, k-1` have been
processed, starting from `{self}`. -/
def unpackUpto (X : PartialSignVector) (k : Nat) : Finset PartialSignVector :=
  (List.range k).foldl (fun res e => unpackStep e res) {X}

/-- `unpack()` with default indices, before the final cast: the loop runs over
`range(len(self))`. -/
def unpackAll (X : PartialSignVector) : Finset PartialSignVector :=
  (List.range X.length).foldl (fun res e => unpackStep e res) {X}

/-- `unpack()` with default indices: the loop result cast to sign vectors via
`to_sign_vector()`. -/
def unpack (X : PartialSignVector) : Finset (SignVector ⊕ String) :=
  (unpackAll X).image to_sign_vector

/-- Representation invariant of the bitset backend: each support is a set of
indices below the shared capacity. -/
def Bounded (X : PartialSignVector) : Prop :=
  X.negative_support ⊆ Finset.range X.length ∧
    X.zero_support ⊆ Finset.range X.length ∧
      X.positive_support ⊆ Finset.range X.length

instance (X : PartialSignVector) : Decidable (Bounded X) :=
  inferInstanceAs (Decidable (_ ∧ _ ∧ _))

/-- Invariant I1 of the spec: every position admits at least one sign. -/
def I1 (X : PartialSignVector) : Prop :=
  ∀ e < X.length, e ∈ X.negative_support ∨ e ∈ X.zero_support ∨
    e ∈ X.positive_support

instance (X : PartialSignVector) : Decidable (I1 X) :=
  Nat.decidableBallLT X.length _

def WellFormed (X : PartialSignVector) : Prop := Bounded X ∧ I1 X

instance (X : PartialSignVector) : Decidable (WellFormed X) :=
  inferInstanceAs (Decidable (_ ∧ _))

/-- The determined reading of a position: `some s` when the position is in
exactly one support (the sign `s`), `none` otherwise. -/
def determined_sign (X : PartialSignVector) (e : Nat) : Option Int :=
  if e ∈ determined_negative_support X then some (-1)
  else if e ∈ determined_zero_support X then some 0
  else if e ∈ determined_positive_support X then some 1
  else none

/-- The set of connecting elements as the claim words it: positions where `x`
is determined-positive and `y` is determined-negative, or `x` is
determined-negative and `y` is determined-positive. -/
def connecting_elements_claimed (X Y : PartialSignVector) : Finset Nat :=
  (determined_positive_support X ∩ determined_negative_support Y) ∪
    (determined_negative_support X ∩ determined_positive_support Y)

/-! ## Basic lemmas -/

theorem PartialSignVector.ext {X Y : PartialSignVector}
    (h0 : X.length = Y.length)
    (h1 : X.negative_support = Y.negative_support)
    (h2 : X.zero_support = Y.zero_support)
    (h3 : X.positive_support = Y.positive_support) : X = Y := by
  cases X; cases Y; simp_all

/-! ## Claim C1 -/

/-- Claim C1: for partial sign vectors of the same length, `compose` has
negative support `x.negative ∪ (y.negative ∩ x.zero)`, zero support
`x.zero ∩ y.zero` and positive support `x.positive ∪ (y.positive ∩ x.zero)`,
and it is not commutative: `"p*0" ∘ "--0" = "//0"` while
`"--0" ∘ "p*0" = "--0"`. -/
theorem claim_C1_compose :
    (∀ X Y : PartialSignVector, X.length = Y.length →
      (compose X Y).negative_support =
          X.negative_support ∪ (Y.negative_support ∩ X.zero_support) ∧
        (compose X Y).zero_support = X.zero_support ∩ Y.zero_support ∧
          (compose X Y).positive_support =
            X.positive_support ∪ (Y.positive_support ∩ X.zero_support)) ∧
    compose (from_string "p*0") (from_string "--0") = from_string "//0" ∧
    compose (from_string "--0") (from_string "p*0") = from_string "--0" ∧
    compose (from_string "p*0") (from_string "--0") ≠
      compose (from_string "--0") (from_string "p*0") :=
  ⟨fun _ _ _ => ⟨rfl, rfl, rfl⟩, by decide, by decide, by decide⟩

theorem claim_C1_compose_witness :
    (compose (from_string "p*0") (from_string "--0")).negative_support =
        (from_string "p*0").negative_support ∪
          ((from_string "--0").negative_support ∩ (from_string "p*0").zero_support) ∧
      (compose (from_string "p*0") (from_string "--0")).zero_support =
          (from_string "p*0").zero_support ∩ (from_string "--0").zero_support ∧
        (compose (from_string "p*0") (from_string "--0")).positive_support =
          (from_string "p*0").positive_support ∪
            ((from_string "--0").positive_support ∩ (from_string "p*0").zero_support) :=
  claim_C1_compose.1 (from_string "p*0") (from_string "--0") (by decide)

/-! ## Claim C2 -/

/-- Claim C2 (code bug): on the partial sign vector `"n"`, which is not a sign
vector, `to_sign_vector` returns the exception object
`Exception("not a sign vector")` as an ordinary value instead of raising it;
`Sum.inr` models the normally returned exception object. -/
theorem claim_C2_to_sign_vector_bug :
    ¬ is_sign_vector (from_string "n") ∧
      to_sign_vector (from_string "n") = Sum.inr "not a sign vector" := by
  decide

/-! ## Claim C3 -/

/-- Claim C3 (code bug): `flip_signs` with the in-range index list `[0]` is
not an involution on `"/"`: the symmetric difference clears position `0` from
both the negative and the positive support, so flipping twice yields the
vector with an empty candidate set at position `0` rather than `"/"`.  The
zero support is indeed always unchanged. -/
theorem claim_C3_flip_signs_bug :
    flip_signs (flip_signs (from_string "/") {0}) {0} ≠ from_string "/" ∧
      ∀ (X : PartialSignVector) (s : Finset Nat),
        (flip_signs X s).zero_support = X.zero_support :=
  ⟨by decide, fun _ _ => rfl⟩

/-! ## Claim C8 -/

/-- Claim C8: `issubset` is a partial order on partial sign vectors of equal
length: it is reflexive, antisymmetric (mutual `issubset` holds exactly for
equal vectors) and transitive. -/
theorem claim_C8_issubset_partial_order :
    ∀ X Y Z : PartialSignVector, X.length = Y.length → Y.length = Z.length →
      issubset X X ∧
        (issubset X Y ∧ issubset Y X ↔ X = Y) ∧
          (issubset X Y → issubset Y Z → issubset X Z) := by
  intro X Y Z hXY hYZ
  refine ⟨⟨Finset.Subset.refl _, Finset.Subset.refl _, Finset.Subset.refl _⟩,
    ⟨?_, ?_⟩, ?_⟩
  · rintro ⟨⟨hp, hn, hz⟩, ⟨hp', hn', hz'⟩⟩
    exact PartialSignVector.ext hXY (Finset.Subset.antisymm hn hn')
      (Finset.Subset.antisymm hz hz') (Finset.Subset.antisymm hp hp')
  · rintro rfl
    exact ⟨⟨Finset.Subset.refl _, Finset.Subset.refl _, Finset.Subset.refl _⟩,
      ⟨Finset.Subset.refl _, Finset.Subset.refl _, Finset.Subset.refl _⟩⟩
  · rintro ⟨hp, hn, hz⟩ ⟨hp', hn', hz'⟩
    exact ⟨hp.trans hp', hn.trans hn', hz.trans hz'⟩

theorem claim_C8_issubset_partial_order_witness :
    issubset (from_string "-+00+") (from_string "-+00+") ∧
      (issubset (from_string "-+00+") (from_string "-/p0+") ∧
          issubset (from_string "-/p0+") (from_string "-+00+") ↔
        from_string "-+00+" = from_string "-/p0+") ∧
      (issubset (from_string "-+00+") (from_string "-/p0+") →
        issubset (from_string "-/p0+") (from_string "-/p**") →
          issubset (from_string "-+00+") (from_string "-/p**")) :=
  claim_C8_issubset_partial_order (from_string "-+00+") (from_string "-/p0+")
    (from_string "-/p**") (by decide) (by decide)

/-! ## Claim C10 -/

/-- Claim C10: `compose` preserves invariant I1 and the length: composing two
well-formed partial sign vectors of the same length yields a vector of that
length in which every position again lies in at least one support. -/
theorem claim_C10_compose_wellformed :
    ∀ X Y : PartialSignVector, X.length = Y.length → I1 X → I1 Y →
      (compose X Y).length = X.length ∧ I1 (compose X Y) := by
  intro X Y h hX hY
  have hlen : (compose X Y).length = X.length := by
    simp [compose, h]
  refine ⟨hlen, ?_⟩
  intro e he
  rw [hlen] at he
  show e ∈ X.negative_support ∪ (Y.negative_support ∩ X.zero_support) ∨
    e ∈ X.zero_support ∩ Y.zero_support ∨
      e ∈ X.positive_support ∪ (Y.positive_support ∩ X.zero_support)
  rcases hX e he with h1 | h1 | h1
  · exact Or.inl (Finset.mem_union_left _ h1)
  · rcases hY e (h ▸ he) with h2 | h2 | h2
    · exact Or.inl (Finset.mem_union_right _ (Finset.mem_inter.mpr ⟨h2, h1⟩))
    · exact Or.inr (Or.inl (Finset.mem_inter.mpr ⟨h1, h2⟩))
    · exact Or.inr (Or.inr
        (Finset.mem_union_right _ (Finset.mem_inter.mpr ⟨h2, h1⟩)))
  · exact Or.inr (Or.inr (Finset.mem_union_left _ h1))

theorem claim_C10_compose_wellformed_witness :
    (compose (from_string "p*0") (from_string "--0")).length =
        (from_string "p*0").length ∧
      I1 (compose (from_string "p*0") (from_string "--0")) :=
  claim_C10_compose_wellformed (from_string "p*0") (from_string "--0")
    (by decide) (by decide) (by decide)

/-! ## Determined signs -/

theorem mem_determined_negative {X : PartialSignVector} {e : Nat} :
    e ∈ determined_negative_support X ↔
      e ∈ X.negative_support ∧ e ∉ X.positive_support ∧ e ∉ X.zero_support := by
  simp [determined_negative_support, not_or, and_assoc]

theorem mem_determined_zero {X : PartialSignVector} {e : Nat} :
    e ∈ determined_zero_support X ↔
      e ∈ X.zero_support ∧ e ∉ X.negative_support ∧ e ∉ X.positive_support := by
  simp [determined_zero_support, not_or, and_assoc]

theorem mem_determined_positive {X : PartialSignVector} {e : Nat} :
    e ∈ determined_positive_support X ↔
      e ∈ X.positive_support ∧ e ∉ X.negative_support ∧ e ∉ X.zero_support := by
  simp [determined_positive_support, not_or, and_assoc]

theorem determined_sign_eq_neg {X : PartialSignVector} {e : Nat} :
    determined_sign X e = some (-1) ↔ e ∈ determined_negative_support X := by
  unfold determined_sign
  split_ifs with h1 h2 h3 <;>
    simp_all [mem_determined_negative, mem_determined_zero,
      mem_determined_positive]

theorem determined_sign_eq_zero {X : PartialSignVector} {e : Nat} :
    determined_sign X e = some 0 ↔ e ∈ determined_zero_support X := by
  unfold determined_sign
  split_ifs with h1 h2 h3 <;>
    simp_all [mem_determined_negative, mem_determined_zero,
      mem_determined_positive]

theorem determined_sign_eq_pos {X : PartialSignVector} {e : Nat} :
    determined_sign X e = some 1 ↔ e ∈ determined_positive_support X := by
  unfold determined_sign
  split_ifs with h1 h2 h3 <;>
    simp_all [mem_determined_negative, mem_determined_zero,
      mem_determined_positive]

theorem determined_sign_cases {X : PartialSignVector} {e : Nat} {s : Int}
    (h : determined_sign X e = some s) : s = -1 ∨ s = 0 ∨ s = 1 := by
  unfold determined_sign at h
  split_ifs at h <;> simp_all

/-! ## Claim C4 -/

/-- Claim C4 (counterexample): on `x = "+"`, `y = "-"` the set the claim
describes (`x` determined-positive and `y` determined-negative, or the
reverse) is `{0}`, but `connecting_elements` returns the empty set. -/
theorem claim_C4_counterexample :
    connecting_elements (from_string "+") (from_string "-") ≠
      connecting_elements_claimed (from_string "+") (from_string "-") := by
  decide

/-- Claim C4 (amended): `connecting_elements` returns exactly the positions
where both vectors carry the SAME determined nonzero sign — for a partial
`y`, `x` determined-positive and `y` determined-positive, or `x`
determined-negative and `y` determined-negative; for a total `y`, `x`'s
determined sign lying in the corresponding support of `y`.  This matches the
source's doctest `("+*-p-").connecting_elements("+--++") == [0, 2]`. -/
theorem claim_C4_amended :
    (∀ (X Y : PartialSignVector) (e : Nat),
      e ∈ connecting_elements X Y ↔
        ∃ s : Int, s ≠ 0 ∧ determined_sign X e = some s ∧
          determined_sign Y e = some s) ∧
    (∀ (X : PartialSignVector) (sv : SignVector) (e : Nat),
      e ∈ connecting_elements_sv X sv ↔
        ((determined_sign X e = some 1 ∧ e ∈ sv.positive_support) ∨
          (determined_sign X e = some (-1) ∧ e ∈ sv.negative_support))) ∧
    connecting_elements (from_string "+*-p-") (from_string "+--++") =
      ({0, 2} : Finset Nat) := by
  refine ⟨?_, ?_, by decide⟩
  · intro X Y e
    constructor
    · intro h
      rcases Finset.mem_union.mp h with h | h
      · rcases Finset.mem_inter.mp h with ⟨hX, hY⟩
        exact ⟨1, by decide, determined_sign_eq_pos.mpr hX,
          determined_sign_eq_pos.mpr hY⟩
      · rcases Finset.mem_inter.mp h with ⟨hX, hY⟩
        exact ⟨-1, by decide, determined_sign_eq_neg.mpr hX,
          determined_sign_eq_neg.mpr hY⟩
    · rintro ⟨s, hs, hX, hY⟩
      rcases determined_sign_cases hX with rfl | rfl | rfl
      · exact Finset.mem_union_right _ (Finset.mem_inter.mpr
          ⟨determined_sign_eq_neg.mp hX, determined_sign_eq_neg.mp hY⟩)
      · exact absurd rfl hs
      · exact Finset.mem_union_left _ (Finset.mem_inter.mpr
          ⟨determined_sign_eq_pos.mp hX, determined_sign_eq_pos.mp hY⟩)
  · intro X sv e
    constructor
    · intro h
      rcases Finset.mem_union.mp h with h | h
      · rcases Finset.mem_inter.mp h with ⟨hX, hY⟩
        exact Or.inl ⟨determined_sign_eq_pos.mpr hX, hY⟩
      · rcases Finset.mem_inter.mp h with ⟨hX, hY⟩
        exact Or.inr ⟨determined_sign_eq_neg.mpr hX, hY⟩
    · rintro (⟨hX, hY⟩ | ⟨hX, hY⟩)
      · exact Finset.mem_union_left _
          (Finset.mem_inter.mpr ⟨determined_sign_eq_pos.mp hX, hY⟩)
      · exact Finset.mem_union_right _
          (Finset.mem_inter.mpr ⟨determined_sign_eq_neg.mp hX, hY⟩)

/-! ## Claim C7 -/

/-- Claim C7: `is_orthogonal_to` returns true immediately when the union of
the determined-zero supports (the zero support for a total `other`) covers
all positions, and otherwise returns true iff both the separating and the
connecting element sets are nonempty; `"n*0-+"` is orthogonal to `"**0++"`
and not orthogonal to `"0*++0"`. -/
theorem claim_C7_is_orthogonal_to :
    (∀ X Y : PartialSignVector, X.length = Y.length →
      ((Finset.range X.length ⊆
          determined_zero_support X ∪ determined_zero_support Y) →
        is_orthogonal_to X Y = true) ∧
      (¬(Finset.range X.length ⊆
          determined_zero_support X ∪ determined_zero_support Y) →
        (is_orthogonal_to X Y = true ↔
          (separating_elements X Y).Nonempty ∧
            (connecting_elements X Y).Nonempty))) ∧
    (∀ (X : PartialSignVector) (sv : SignVector), X.length = sv.length →
      ((Finset.range X.length ⊆
          determined_zero_support X ∪ SignVector.zero_support sv) →
        is_orthogonal_to_sv X sv = true) ∧
      (¬(Finset.range X.length ⊆
          determined_zero_support X ∪ SignVector.zero_support sv) →
        (is_orthogonal_to_sv X sv = true ↔
          (separating_elements_sv X sv).Nonempty ∧
            (connecting_elements_sv X sv).Nonempty))) ∧
    is_orthogonal_to (from_string "n*0-+") (from_string "**0++") = true ∧
    is_orthogonal_to (from_string "n*0-+") (from_string "0*++0") = false := by
  refine ⟨?_, ?_, by decide, by decide⟩
  · intro X Y h
    have hmax : max X.length Y.length = X.length := by rw [h, max_self]
    constructor
    · intro hc
      have hd : Finset.range (max X.length Y.length) \
          (determined_zero_support X ∪ determined_zero_support Y) = ∅ := by
        rw [hmax]
        exact Finset.sdiff_eq_empty_iff_subset.mpr hc
      simp [is_orthogonal_to, hd]
    · intro hc
      have hd : ¬(Finset.range (max X.length Y.length) \
          (determined_zero_support X ∪ determined_zero_support Y) = ∅) := by
        rw [hmax]
        exact fun hh => hc (Finset.sdiff_eq_empty_iff_subset.mp hh)
      simp only [is_orthogonal_to, if_neg hd, Bool.not_eq_eq_eq_not,
        Bool.not_true, Bool.or_eq_false_iff, decide_eq_false_iff_not,
        Finset.nonempty_iff_ne_empty]
  · intro X sv h
    have hmax : max X.length sv.length = X.length := by rw [h, max_self]
    constructor
    · intro hc
      have hd : Finset.range (max X.length sv.length) \
          (determined_zero_support X ∪ SignVector.zero_support sv) = ∅ := by
        rw [hmax]
        exact Finset.sdiff_eq_empty_iff_subset.mpr hc
      simp [is_orthogonal_to_sv, hd]
    · intro hc
      have hd : ¬(Finset.range (max X.length sv.length) \
          (determined_zero_support X ∪ SignVector.zero_support sv) = ∅) := by
        rw [hmax]
        exact fun hh => hc (Finset.sdiff_eq_empty_iff_subset.mp hh)
      simp only [is_orthogonal_to_sv, if_neg hd, Bool.not_eq_eq_eq_not,
        Bool.not_true, Bool.or_eq_false_iff, decide_eq_false_iff_not,
        Finset.nonempty_iff_ne_empty]

/-! ## Claim C6: the unpack loop -/

theorem mem_neg_set_sign {X : PartialSignVector} {e a : Nat} {s : Int} :
    a ∈ (set_sign X {e} [s]).negative_support ↔
      (if a = e then s = -1 else a ∈ X.negative_support) := by
  by_cases hs : s = -1 <;> by_cases ha : a = e <;>
    simp [set_sign, hs, ha, eq_comm]

theorem mem_zero_set_sign {X : PartialSignVector} {e a : Nat} {s : Int} :
    a ∈ (set_sign X {e} [s]).zero_support ↔
      (if a = e then s = 0 else a ∈ X.zero_support) := by
  by_cases hs : s = 0 <;> by_cases ha : a = e <;>
    simp [set_sign, hs, ha, eq_comm]

theorem mem_pos_set_sign {X : PartialSignVector} {e a : Nat} {s : Int} :
    a ∈ (set_sign X {e} [s]).positive_support ↔
      (if a = e then s = 1 else a ∈ X.positive_support) := by
  by_cases hs : s = 1 <;> by_cases ha : a = e <;>
    simp [set_sign, hs, ha, eq_comm]

theorem admissibleSigns_congr {p q : PartialSignVector} {e : Nat}
    (h1 : e ∈ p.negative_support ↔ e ∈ q.negative_support)
    (h2 : e ∈ p.zero_support ↔ e ∈ q.zero_support)
    (h3 : e ∈ p.positive_support ↔ e ∈ q.positive_support) :
    admissibleSigns p e = admissibleSigns q e := by
  unfold admissibleSigns
  rw [if_congr h1 rfl rfl, if_congr h2 rfl rfl, if_congr h3 rfl rfl]

/-- Relation between a vector `p` in the loop state after `k` processed
positions and the original vector `X`: the length is unchanged, positions
`≥ k` are untouched, and each position `< k` has been forced to a single
admissible sign of `X`. -/
def UnpackedBy (X : PartialSignVector) (k : Nat) (p : PartialSignVector) : Prop :=
  p.length = X.length ∧
    (∀ e, k ≤ e →
      ((e ∈ p.negative_support ↔ e ∈ X.negative_support) ∧
        (e ∈ p.zero_support ↔ e ∈ X.zero_support) ∧
          (e ∈ p.positive_support ↔ e ∈ X.positive_support))) ∧
    (∀ e, e < k → ∃ s ∈ admissibleSigns X e,
      (e ∈ p.negative_support ↔ s = -1) ∧
        (e ∈ p.zero_support ↔ s = 0) ∧
          (e ∈ p.positive_support ↔ s = 1))

theorem unpackUpto_zero (X : PartialSignVector) : unpackUpto X 0 = {X} := rfl

theorem unpackUpto_succ (X : PartialSignVector) (k : Nat) :
    unpackUpto X (k + 1) = unpackStep k (unpackUpto X k) := by
  unfold unpackUpto
  rw [List.range_succ, List.foldl_append]
  rfl

theorem unpackAll_eq (X : PartialSignVector) :
    unpackAll X = unpackUpto X X.length := rfl

theorem mem_unpackUpto {X : PartialSignVector} :
    ∀ k, ∀ p ∈ unpackUpto X k, UnpackedBy X k p := by
  intro k
  induction k with
  | zero =>
    intro p hp
    rw [unpackUpto_zero, Finset.mem_singleton] at hp
    subst hp
    exact ⟨rfl, fun e _ => ⟨Iff.rfl, Iff.rfl, Iff.rfl⟩,
      fun e he => absurd he (Nat.not_lt_zero e)⟩
  | succ k ih =>
    intro p hp
    rw [unpackUpto_succ, unpackStep, Finset.mem_biUnion] at hp
    obtain ⟨q, hq, hp⟩ := hp
    rw [Finset.mem_image] at hp
    obtain ⟨s, hs, rfl⟩ := hp
    rw [List.mem_toFinset] at hs
    obtain ⟨hqlen, hqhigh, hqlow⟩ := ih q hq
    have hadm : admissibleSigns q k = admissibleSigns X k :=
      admissibleSigns_congr (hqhigh k le_rfl).1 (hqhigh k le_rfl).2.1
        (hqhigh k le_rfl).2.2
    rw [hadm] at hs
    refine ⟨hqlen, ?_, ?_⟩
    · intro e he
      have hek : e ≠ k := by omega
      have he' : k ≤ e := by omega
      refine ⟨?_, ?_, ?_⟩
      · rw [mem_neg_set_sign, if_neg hek]
        exact (hqhigh e he').1
      · rw [mem_zero_set_sign, if_neg hek]
        exact (hqhigh e he').2.1
      · rw [mem_pos_set_sign, if_neg hek]
        exact (hqhigh e he').2.2
    · intro e he
      by_cases hek : e = k
      · subst hek
        refine ⟨s, hs, ?_, ?_, ?_⟩
        · rw [mem_neg_set_sign, if_pos rfl]
        · rw [mem_zero_set_sign, if_pos rfl]
        · rw [mem_pos_set_sign, if_pos rfl]
      · have he' : e < k := by omega
        obtain ⟨t, ht, h1, h2, h3⟩ := hqlow e he'
        refine ⟨t, ht, ?_, ?_, ?_⟩
        · rw [mem_neg_set_sign, if_neg hek]
          exact h1
        · rw [mem_zero_set_sign, if_neg hek]
          exact h2
        · rw [mem_pos_set_sign, if_neg hek]
          exact h3

/-! ## Claim C9 -/

theorem admissibleSigns_sorted (X : PartialSignVector) (e : Nat) :
    List.Sorted (fun a b : Int => a < b) (admissibleSigns X e) := by
  unfold admissibleSigns
  split_ifs <;> decide

theorem mem_admissibleSigns {X : PartialSignVector} {e : Nat} {s : Int} :
    s ∈ admissibleSigns X e ↔
      ((s = -1 ∧ e ∈ X.negative_support) ∨ (s = 0 ∧ e ∈ X.zero_support) ∨
        (s = 1 ∧ e ∈ X.positive_support)) := by
  unfold admissibleSigns
  split_ifs with h1 h2 h3 <;> simp_all

/-- Claim C9: indexing fails with `IndexError("index out of range")` exactly
when `i >= length` or `i < -length`; otherwise it returns the list of
admissible signs at position `i` (position `length + i` for negative `i`) in
ascending `{-1, 0, 1}` order. -/
theorem claim_C9_getitem :
    ∀ (X : PartialSignVector) (i : Int),
      (getitem X i = Except.error "index out of range" ↔
        ((X.length : Int) ≤ i ∨ i < -(X.length : Int))) ∧
      (¬((X.length : Int) ≤ i ∨ i < -(X.length : Int)) →
        getitem X i = Except.ok (admissibleSigns X
            (if i < 0 then (i + (X.length : Int)).toNat else i.toNat)) ∧
          List.Sorted (fun a b : Int => a < b) (admissibleSigns X
            (if i < 0 then (i + (X.length : Int)).toNat else i.toNat)) ∧
          ∀ s : Int, s ∈ admissibleSigns X
              (if i < 0 then (i + (X.length : Int)).toNat else i.toNat) ↔
            ((s = -1 ∧ (if i < 0 then (i + (X.length : Int)).toNat
                else i.toNat) ∈ X.negative_support) ∨
              (s = 0 ∧ (if i < 0 then (i + (X.length : Int)).toNat
                else i.toNat) ∈ X.zero_support) ∨
              (s = 1 ∧ (if i < 0 then (i + (X.length : Int)).toNat
                else i.toNat) ∈ X.positive_support))) := by
  intro X i
  by_cases hout : (X.length : Int) ≤ i ∨ i < -(X.length : Int)
  · exact ⟨iff_of_true (by simp [getitem, hout]) hout, fun h => absurd hout h⟩
  · refine ⟨iff_of_false ?_ hout, fun _ => ⟨?_, admissibleSigns_sorted _ _,
      fun s => mem_admissibleSigns⟩⟩
    · by_cases hi : i < 0 <;> simp [getitem, hout, hi]
    · by_cases hi : i < 0 <;> simp [getitem, hout, hi]

theorem claim_C9_getitem_witness :
    getitem (from_string "0+*n") 100 = Except.error "index out of range" ∧
      getitem (from_string "0+*n") (-1) =
        Except.ok (admissibleSigns (from_string "0+*n")
          (if (-1 : Int) < 0 then
            ((-1 : Int) + ((from_string "0+*n").length : Int)).toNat
           else (-1 : Int).toNat)) :=
  ⟨(claim_C9_getitem (from_string "0+*n") 100).1.mpr (by decide),
    ((claim_C9_getitem (from_string "0+*n") (-1)).2 (by decide)).1⟩

/-! ## Claim C5 -/

theorem admissibleSigns_fromChars (cs : List Char) (e : Nat) (he : e < cs.length) :
    admissibleSigns (fromChars cs) e =
      (if cs.getD e ' ' ∈ negChars then [-1] else []) ++
        (if cs.getD e ' ' ∈ zeroChars then [0] else []) ++
          (if cs.getD e ' ' ∈ posChars then [1] else []) := by
  simp [admissibleSigns, fromChars, Finset.mem_filter, Finset.mem_range, he]

theorem to_string_at_fromChars (cs : List Char) (e : Nat) (he : e < cs.length)
    (hc : cs.getD e ' ' ∈ alphabet) :
    to_string_at (fromChars cs) e = some (cs.getD e ' ') := by
  have h := admissibleSigns_fromChars cs e he
  simp only [alphabet, List.mem_cons, List.not_mem_nil, or_false] at hc
  unfold to_string_at
  rcases hc with hc | hc | hc | hc | hc | hc | hc <;> rw [h, hc] <;> decide

theorem joinChars_map_some (cs : List Char) : joinChars (cs.map some) = some cs := by
  induction cs with
  | nil => rfl
  | cons c rest ih => simp [joinChars, ih]

theorem map_to_string_at_fromChars (cs : List Char)
    (h : ∀ c ∈ cs, c ∈ alphabet) :
    (List.range cs.length).map (to_string_at (fromChars cs)) = cs.map some := by
  apply List.ext_getElem
  · simp
  · intro i h1 h2
    have hi : i < cs.length := by simpa using h2
    have hgd : cs.getD i ' ' = cs[i] := by
      rw [List.getD_eq_getElem?_getD, List.getElem?_eq_getElem hi,
        Option.getD_some]
    simp only [List.getElem_map, List.getElem_range]
    rw [to_string_at_fromChars cs i hi (hgd ▸ h cs[i] (List.getElem_mem hi)),
      hgd]

/-- Claim C5, first half: parsing then printing a string over the 7-letter
alphabet gives it back. -/
theorem to_string_fromChars (s : String) (h : ∀ c ∈ s.data, c ∈ alphabet) :
    to_string (from_string s) = some s := by
  unfold to_string from_string
  rw [show (fromChars s.data).length = s.data.length from rfl,
    map_to_string_at_fromChars s.data h, joinChars_map_some]
  rfl

/-- The character `to_string` produces at a position, with a junk default for
the impossible empty candidate set. -/
def charAtD (X : PartialSignVector) (e : Nat) : Char :=
  (to_string_at X e).getD '?'

theorem to_string_at_of_nonempty {X : PartialSignVector} {e : Nat}
    (h : e ∈ X.negative_support ∨ e ∈ X.zero_support ∨ e ∈ X.positive_support) :
    ∃ c, to_string_at X e = some c ∧
      (c ∈ negChars ↔ e ∈ X.negative_support) ∧
      (c ∈ zeroChars ↔ e ∈ X.zero_support) ∧
      (c ∈ posChars ↔ e ∈ X.positive_support) := by
  by_cases h1 : e ∈ X.negative_support <;>
    by_cases h2 : e ∈ X.zero_support <;>
      by_cases h3 : e ∈ X.positive_support
  · exact ⟨'*', by simp [to_string_at, admissibleSigns, h1, h2, h3],
      iff_of_true (by decide) h1, iff_of_true (by decide) h2,
      iff_of_true (by decide) h3⟩
  · exact ⟨'n', by simp [to_string_at, admissibleSigns, h1, h2, h3],
      iff_of_true (by decide) h1, iff_of_true (by decide) h2,
      iff_of_false (by decide) h3⟩
  · exact ⟨'/', by simp [to_string_at, admissibleSigns, h1, h2, h3],
      iff_of_true (by decide) h1, iff_of_false (by decide) h2,
      iff_of_true (by decide) h3⟩
  · exact ⟨'-', by simp [to_string_at, admissibleSigns, h1, h2, h3],
      iff_of_true (by decide) h1, iff_of_false (by decide) h2,
      iff_of_false (by decide) h3⟩
  · exact ⟨'p', by simp [to_string_at, admissibleSigns, h1, h2, h3],
      iff_of_false (by decide) h1, iff_of_true (by decide) h2,
      iff_of_true (by decide) h3⟩
  · exact ⟨'0', by simp [to_string_at, admissibleSigns, h1, h2, h3],
      iff_of_false (by decide) h1, iff_of_true (by decide) h2,
      iff_of_false (by decide) h3⟩
  · exact ⟨'+', by simp [to_string_at, admissibleSigns, h1, h2, h3],
      iff_of_false (by decide) h1, iff_of_false (by decide) h2,
      iff_of_true (by decide) h3⟩
  · exact absurd h (by simp [h1, h2, h3])

theorem to_string_of_I1 (X : PartialSignVector) (h : I1 X) :
    to_string X = some (String.mk ((List.range X.length).map (charAtD X))) := by
  unfold to_string
  have hmap : (List.range X.length).map (to_string_at X) =
      ((List.range X.length).map (charAtD X)).map some := by
    rw [List.map_map]
    apply List.map_congr_left
    intro e he
    obtain ⟨c, hc, -, -, -⟩ :=
      to_string_at_of_nonempty (h e (List.mem_range.mp he))
    simp [charAtD, hc, Function.comp]
  rw [hmap, joinChars_map_some]
  rfl

theorem charAtD_mem {X : PartialSignVector} (h : I1 X) {e : Nat}
    (he : e < X.length) :
    (charAtD X e ∈ negChars ↔ e ∈ X.negative_support) ∧
      (charAtD X e ∈ zeroChars ↔ e ∈ X.zero_support) ∧
        (charAtD X e ∈ posChars ↔ e ∈ X.positive_support) := by
  obtain ⟨c, hc, hn, hz, hp⟩ := to_string_at_of_nonempty (h e he)
  rw [charAtD, hc]
  exact ⟨hn, hz, hp⟩

theorem fromChars_charAtD (X : PartialSignVector) (hB : Bounded X) (h1 : I1 X) :
    fromChars ((List.range X.length).map (charAtD X)) = X := by
  have hlen : ((List.range X.length).map (charAtD X)).length = X.length := by
    simp
  have hgd : ∀ e, e < X.length →
      ((List.range X.length).map (charAtD X)).getD e ' ' = charAtD X e := by
    intro e he
    have he' : e < ((List.range X.length).map (charAtD X)).length := by
      simpa using he
    rw [List.getD_eq_getElem?_getD, List.getElem?_eq_getElem he',
      Option.getD_some]
    simp
  refine PartialSignVector.ext (by simp [fromChars]) ?_ ?_ ?_
  · ext e
    simp only [fromChars, Finset.mem_filter, Finset.mem_range, hlen]
    constructor
    · rintro ⟨he, hc⟩
      exact (charAtD_mem h1 he).1.mp (by rwa [hgd e he] at hc)
    · intro he
      have hen : e < X.length := Finset.mem_range.mp (hB.1 he)
      exact ⟨hen, by rw [hgd e hen]; exact (charAtD_mem h1 hen).1.mpr he⟩
  · ext e
    simp only [fromChars, Finset.mem_filter, Finset.mem_range, hlen]
    constructor
    · rintro ⟨he, hc⟩
      exact (charAtD_mem h1 he).2.1.mp (by rwa [hgd e he] at hc)
    · intro he
      have hen : e < X.length := Finset.mem_range.mp (hB.2.1 he)
      exact ⟨hen, by rw [hgd e hen]; exact (charAtD_mem h1 hen).2.1.mpr he⟩
  · ext e
    simp only [fromChars, Finset.mem_filter, Finset.mem_range, hlen]
    constructor
    · rintro ⟨he, hc⟩
      exact (charAtD_mem h1 he).2.2.mp (by rwa [hgd e he] at hc)
    · intro he
      have hen : e < X.length := Finset.mem_range.mp (hB.2.2 he)
      exact ⟨hen, by rw [hgd e hen]; exact (charAtD_mem h1 hen).2.2.mpr he⟩

/-- Claim C5: for every string over the seven-letter alphabet, parsing then
printing gives the string back; and every well-formed partial sign vector is
printed to a string that parses back to the vector itself. -/
theorem claim_C5_round_trip :
    (∀ s : String, (∀ c ∈ s.data, c ∈ alphabet) →
      to_string (from_string s) = some s) ∧
    (∀ X : PartialSignVector, WellFormed X →
      ∃ t : String, to_string X = some t ∧ from_string t = X) := by
  refine ⟨to_string_fromChars, ?_⟩
  intro X hX
  exact ⟨String.mk ((List.range X.length).map (charAtD X)),
    to_string_of_I1 X hX.2, fromChars_charAtD X hX.1 hX.2⟩

theorem claim_C5_round_trip_witness :
    to_string (from_string "+0-np/*") = some "+0-np/*" ∧
      ∃ t : String, to_string (from_string "+0-") = some t ∧
        from_string t = from_string "+0-" :=
  ⟨claim_C5_round_trip.1 "+0-np/*" (by decide),
    claim_C5_round_trip.2 (from_string "+0-") (by decide)⟩

theorem claim_C7_is_orthogonal_to_witness :
    (is_orthogonal_to (from_string "n*0-+") (from_string "0*++0") = true ↔
      (separating_elements (from_string "n*0-+") (from_string "0*++0")).Nonempty ∧
        (connecting_elements (from_string "n*0-+") (from_string "0*++0")).Nonempty) ∧
    is_orthogonal_to_sv (from_string "+-")
        (⟨2, ∅, ∅⟩ : SignVector) = true :=
  ⟨(claim_C7_is_orthogonal_to.1 (from_string "n*0-+") (from_string "0*++0")
      (by decide)).2 (by decide),
    (claim_C7_is_orthogonal_to.2.1 (from_string "+-")
      (⟨2, ∅, ∅⟩ : SignVector) (by decide)).1 (by decide)⟩

/-! ## Claim C6: counting the unpack loop -/

theorem admissibleSigns_mem_values {X : PartialSignVector} {e : Nat} {s : Int}
    (h : s ∈ admissibleSigns X e) : s = -1 ∨ s = 0 ∨ s = 1 := by
  rcases mem_admissibleSigns.mp h with ⟨h, -⟩ | ⟨h, -⟩ | ⟨h, -⟩ <;> tauto

theorem admissibleSigns_nodup (X : PartialSignVector) (e : Nat) :
    (admissibleSigns X e).Nodup := by
  unfold admissibleSigns
  split_ifs <;> decide

theorem set_sign_single_inj {X : PartialSignVector} {k : Nat}
    {q q' : PartialSignVector} {s s' : Int}
    (hq : UnpackedBy X k q) (hq' : UnpackedBy X k q')
    (hs : s ∈ admissibleSigns X k) (hs' : s' ∈ admissibleSigns X k)
    (heq : set_sign q {k} [s] = set_sign q' {k} [s']) : s = s' ∧ q = q' := by
  have k1 : (s' = -1) ↔ (s = -1) := by
    rw [show (s' = -1) ↔ k ∈ (set_sign q' {k} [s']).negative_support by
        rw [mem_neg_set_sign, if_pos rfl],
      ← heq, mem_neg_set_sign, if_pos rfl]
  have k2 : (s' = 0) ↔ (s = 0) := by
    rw [show (s' = 0) ↔ k ∈ (set_sign q' {k} [s']).zero_support by
        rw [mem_zero_set_sign, if_pos rfl],
      ← heq, mem_zero_set_sign, if_pos rfl]
  have hss : s = s' := by
    rcases admissibleSigns_mem_values hs with rfl | rfl | rfl <;>
      rcases admissibleSigns_mem_values hs' with rfl | rfl | rfl <;>
        simp_all
  subst hss
  refine ⟨rfl, PartialSignVector.ext (hq.1.trans hq'.1.symm) ?_ ?_ ?_⟩
  · ext a
    by_cases hak : a = k
    · subst hak
      rw [(hq.2.1 a le_rfl).1, (hq'.2.1 a le_rfl).1]
    · rw [show (a ∈ q.negative_support) ↔
            a ∈ (set_sign q {k} [s]).negative_support by
          rw [mem_neg_set_sign, if_neg hak],
        heq, mem_neg_set_sign, if_neg hak]
  · ext a
    by_cases hak : a = k
    · subst hak
      rw [(hq.2.1 a le_rfl).2.1, (hq'.2.1 a le_rfl).2.1]
    · rw [show (a ∈ q.zero_support) ↔ a ∈ (set_sign q {k} [s]).zero_support by
          rw [mem_zero_set_sign, if_neg hak],
        heq, mem_zero_set_sign, if_neg hak]
  · ext a
    by_cases hak : a = k
    · subst hak
      rw [(hq.2.1 a le_rfl).2.2, (hq'.2.1 a le_rfl).2.2]
    · rw [show (a ∈ q.positive_support) ↔
            a ∈ (set_sign q {k} [s]).positive_support by
          rw [mem_pos_set_sign, if_neg hak],
        heq, mem_pos_set_sign, if_neg hak]

theorem card_unpackUpto (X : PartialSignVector) :
    ∀ k, (unpackUpto X k).card =
      ∏ e ∈ Finset.range k, (admissibleSigns X e).length := by
  intro k
  induction k with
  | zero => simp [unpackUpto_zero]
  | succ k ih =>
    have hdisj : ∀ q ∈ unpackUpto X k, ∀ q' ∈ unpackUpto X k, q ≠ q' →
        Disjoint
          ((admissibleSigns q k).toFinset.image (fun s => set_sign q {k} [s]))
          ((admissibleSigns q' k).toFinset.image
            (fun s => set_sign q' {k} [s])) := by
      intro q hq q' hq' hne
      rw [Finset.disjoint_left]
      intro a ha ha'
      rw [Finset.mem_image] at ha ha'
      obtain ⟨s, hs, rfl⟩ := ha
      obtain ⟨s', hs', heq⟩ := ha'
      have hinv := mem_unpackUpto k q hq
      have hinv' := mem_unpackUpto k q' hq'
      have hadm : admissibleSigns q k = admissibleSigns X k :=
        admissibleSigns_congr (hinv.2.1 k le_rfl).1 (hinv.2.1 k le_rfl).2.1
          (hinv.2.1 k le_rfl).2.2
      have hadm' : admissibleSigns q' k = admissibleSigns X k :=
        admissibleSigns_congr (hinv'.2.1 k le_rfl).1 (hinv'.2.1 k le_rfl).2.1
          (hinv'.2.1 k le_rfl).2.2
      rw [List.mem_toFinset, hadm] at hs
      rw [List.mem_toFinset, hadm'] at hs'
      exact hne (set_sign_single_inj hinv hinv' hs hs' heq.symm).2
    rw [unpackUpto_succ, unpackStep, Finset.card_biUnion hdisj,
      Finset.prod_range_succ, ← ih]
    have hcard : ∀ q ∈ unpackUpto X k,
        ((admissibleSigns q k).toFinset.image
          (fun s => set_sign q {k} [s])).card =
          (admissibleSigns X k).length := by
      intro q hq
      have hinv := mem_unpackUpto k q hq
      have hadm : admissibleSigns q k = admissibleSigns X k :=
        admissibleSigns_congr (hinv.2.1 k le_rfl).1 (hinv.2.1 k le_rfl).2.1
          (hinv.2.1 k le_rfl).2.2
      rw [hadm, Finset.card_image_of_injOn ?inj,
        List.toFinset_card_of_nodup (admissibleSigns_nodup X k)]
      intro s hs t ht hst
      have hs' : s ∈ admissibleSigns X k := by
        rwa [Finset.mem_coe, List.mem_toFinset] at hs
      have ht' : t ∈ admissibleSigns X k := by
        rwa [Finset.mem_coe, List.mem_toFinset] at ht
      exact (set_sign_single_inj hinv hinv hs' ht' hst).1
    rw [Finset.sum_congr rfl hcard, Finset.sum_const, smul_eq_mul]

theorem admissibleSigns_length (X : PartialSignVector) (e : Nat) :
    (admissibleSigns X e).length =
      (if e ∈ X.negative_support then 1 else 0) +
        (if e ∈ X.zero_support then 1 else 0) +
          (if e ∈ X.positive_support then 1 else 0) := by
  unfold admissibleSigns
  split_ifs <;> rfl

theorem determined_eq_filter (X : PartialSignVector) (hB : Bounded X) :
    determined_support X = (Finset.range X.length).filter
      (fun e => (admissibleSigns X e).length = 1) := by
  ext e
  rw [Finset.mem_filter, Finset.mem_range]
  by_cases h1 : e ∈ X.negative_support <;>
    by_cases h2 : e ∈ X.zero_support <;>
      by_cases h3 : e ∈ X.positive_support <;>
        simp [determined_support, mem_determined_negative, mem_determined_zero,
          mem_determined_positive, admissibleSigns_length, h1, h2, h3] <;>
          first
            | exact Finset.mem_range.mp (hB.1 h1)
            | exact Finset.mem_range.mp (hB.2.1 h2)
            | exact Finset.mem_range.mp (hB.2.2 h3)

theorem undetermined_eq_filter (X : PartialSignVector) (hB : Bounded X) :
    undetermined_support X = (Finset.range X.length).filter
      (fun e => (admissibleSigns X e).length = 3) := by
  ext e
  rw [Finset.mem_filter, Finset.mem_range]
  by_cases h1 : e ∈ X.negative_support <;>
    by_cases h2 : e ∈ X.zero_support <;>
      by_cases h3 : e ∈ X.positive_support <;>
        simp [undetermined_support, admissibleSigns_length, h1, h2, h3]
  exact Finset.mem_range.mp (hB.1 h1)

theorem prod_admissibleSigns (X : PartialSignVector) (h : WellFormed X) :
    ∏ e ∈ Finset.range X.length, (admissibleSigns X e).length = cardinality X := by
  obtain ⟨hB, h1⟩ := h
  have hlen13 : ∀ e ∈ Finset.range X.length,
      (admissibleSigns X e).length = 1 ∨ (admissibleSigns X e).length = 2 ∨
        (admissibleSigns X e).length = 3 := by
    intro e he
    by_cases m1 : e ∈ X.negative_support <;>
      by_cases m2 : e ∈ X.zero_support <;>
        by_cases m3 : e ∈ X.positive_support <;>
          simp [admissibleSigns_length, m1, m2, m3]
    exact absurd (h1 e (Finset.mem_range.mp he)) (by simp [m1, m2, m3])
  set f1 := (Finset.range X.length).filter
    (fun e => (admissibleSigns X e).length = 1) with hf1
  set f2 := (Finset.range X.length).filter
    (fun e => (admissibleSigns X e).length = 2) with hf2
  set f3 := (Finset.range X.length).filter
    (fun e => (admissibleSigns X e).length = 3) with hf3
  have hdisj12 : Disjoint f1 f2 := by
    rw [Finset.disjoint_left]
    intro a ha ha'
    rw [hf1, Finset.mem_filter] at ha
    rw [hf2, Finset.mem_filter] at ha'
    omega
  have hdisj13 : Disjoint f1 f3 := by
    rw [Finset.disjoint_left]
    intro a ha ha'
    rw [hf1, Finset.mem_filter] at ha
    rw [hf3, Finset.mem_filter] at ha'
    omega
  have hdisj23 : Disjoint f2 f3 := by
    rw [Finset.disjoint_left]
    intro a ha ha'
    rw [hf2, Finset.mem_filter] at ha
    rw [hf3, Finset.mem_filter] at ha'
    omega
  have hdisj123 : Disjoint (f1 ∪ f2) f3 :=
    Finset.disjoint_union_left.mpr ⟨hdisj13, hdisj23⟩
  have hcover : f1 ∪ f2 ∪ f3 = Finset.range X.length := by
    ext e
    simp only [Finset.mem_union, hf1, hf2, hf3, Finset.mem_filter]
    constructor
    · rintro ((⟨hh, -⟩ | ⟨hh, -⟩) | ⟨hh, -⟩) <;> exact hh
    · intro he
      rcases hlen13 e he with hh | hh | hh
      · exact Or.inl (Or.inl ⟨he, hh⟩)
      · exact Or.inl (Or.inr ⟨he, hh⟩)
      · exact Or.inr ⟨he, hh⟩
  have hprod : ∏ e ∈ Finset.range X.length, (admissibleSigns X e).length =
      (∏ e ∈ f1, (admissibleSigns X e).length) *
        (∏ e ∈ f2, (admissibleSigns X e).length) *
          (∏ e ∈ f3, (admissibleSigns X e).length) := by
    rw [← hcover, Finset.prod_union hdisj123, Finset.prod_union hdisj12]
  have hp1 : ∏ e ∈ f1, (admissibleSigns X e).length = 1 :=
    Finset.prod_eq_one (fun e he => (Finset.mem_filter.mp he).2)
  have hp2 : ∏ e ∈ f2, (admissibleSigns X e).length = 2 ^ f2.card := by
    rw [Finset.prod_congr rfl (fun e he => (Finset.mem_filter.mp he).2),
      Finset.prod_const]
  have hp3 : ∏ e ∈ f3, (admissibleSigns X e).length = 3 ^ f3.card := by
    rw [Finset.prod_congr rfl (fun e he => (Finset.mem_filter.mp he).2),
      Finset.prod_const]
  have hcard : f1.card + f2.card + f3.card = X.length := by
    rw [← Finset.card_union_of_disjoint hdisj12,
      ← Finset.card_union_of_disjoint hdisj123, hcover, Finset.card_range]
  have hdet : (determined_support X).card = f1.card := by
    rw [determined_eq_filter X hB]
  have hund : (undetermined_support X).card = f3.card := by
    rw [undetermined_eq_filter X hB]
  rw [hprod, hp1, hp2, hp3, one_mul, cardinality, hdet, hund,
    show X.length - f1.card - f3.card = f2.card by omega]

theorem unpackAll_spec {X : PartialSignVector} (hB : Bounded X)
    {p : PartialSignVector} (hp : p ∈ unpackAll X) :
    p.length = X.length ∧
      (∀ e, X.length ≤ e →
        e ∉ p.negative_support ∧ e ∉ p.zero_support ∧ e ∉ p.positive_support) ∧
      (∀ e, e < X.length → ∃ s : Int, (s = -1 ∨ s = 0 ∨ s = 1) ∧
        (e ∈ p.negative_support ↔ s = -1) ∧
          (e ∈ p.zero_support ↔ s = 0) ∧
            (e ∈ p.positive_support ↔ s = 1)) := by
  have hinv := mem_unpackUpto X.length p (by rwa [unpackAll_eq] at hp)
  refine ⟨hinv.1, ?_, ?_⟩
  · intro e he
    have h := hinv.2.1 e he
    have hnot : e ∉ Finset.range X.length := by
      rw [Finset.mem_range]
      omega
    exact ⟨fun hm => hnot (hB.1 (h.1.mp hm)),
      fun hm => hnot (hB.2.1 (h.2.1.mp hm)),
      fun hm => hnot (hB.2.2 (h.2.2.mp hm))⟩
  · intro e he
    obtain ⟨s, hs, h1, h2, h3⟩ := hinv.2.2 e he
    exact ⟨s, admissibleSigns_mem_values hs, h1, h2, h3⟩

theorem is_sign_vector_unpackAll {X : PartialSignVector} (hB : Bounded X)
    {p : PartialSignVector} (hp : p ∈ unpackAll X) : is_sign_vector p := by
  obtain ⟨hlen, hhigh, hlow⟩ := unpackAll_spec hB hp
  have hdet : determined_support p = Finset.range X.length := by
    ext e
    rw [Finset.mem_range]
    constructor
    · intro hd
      by_contra hcon
      obtain ⟨n1, n2, n3⟩ := hhigh e (Nat.le_of_not_lt hcon)
      rcases Finset.mem_union.mp hd with hd' | hd'
      · rcases Finset.mem_union.mp hd' with hd'' | hd''
        · exact n1 (mem_determined_negative.mp hd'').1
        · exact n2 (mem_determined_zero.mp hd'').1
      · exact n3 (mem_determined_positive.mp hd').1
    · intro he
      obtain ⟨s, hvals, h1, h2, h3⟩ := hlow e he
      rcases hvals with rfl | rfl | rfl
      · refine Finset.mem_union_left _ (Finset.mem_union_left _ ?_)
        rw [mem_determined_negative]
        exact ⟨h1.mpr rfl, fun hm => absurd (h3.mp hm) (by decide),
          fun hm => absurd (h2.mp hm) (by decide)⟩
      · refine Finset.mem_union_left _ (Finset.mem_union_right _ ?_)
        rw [mem_determined_zero]
        exact ⟨h2.mpr rfl, fun hm => absurd (h1.mp hm) (by decide),
          fun hm => absurd (h3.mp hm) (by decide)⟩
      · refine Finset.mem_union_right _ ?_
        rw [mem_determined_positive]
        exact ⟨h3.mpr rfl, fun hm => absurd (h1.mp hm) (by decide),
          fun hm => absurd (h2.mp hm) (by decide)⟩
  show p.length = (determined_support p).card
  rw [hdet, Finset.card_range]
  exact hlen

theorem zero_iff_unpackAll {X : PartialSignVector} (hB : Bounded X)
    {p : PartialSignVector} (hp : p ∈ unpackAll X) {e : Nat}
    (he : e < X.length) :
    e ∈ p.zero_support ↔
      (e ∉ p.negative_support ∧ e ∉ p.positive_support) := by
  obtain ⟨-, -, hlow⟩ := unpackAll_spec hB hp
  obtain ⟨s, hvals, h1, h2, h3⟩ := hlow e he
  rcases hvals with rfl | rfl | rfl
  · exact iff_of_false (fun hm => absurd (h2.mp hm) (by decide))
      (fun hc => hc.1 (h1.mpr rfl))
  · exact iff_of_true (h2.mpr rfl)
      ⟨fun hm => absurd (h1.mp hm) (by decide),
        fun hm => absurd (h3.mp hm) (by decide)⟩
  · exact iff_of_false (fun hm => absurd (h2.mp hm) (by decide))
      (fun hc => hc.2 (h3.mpr rfl))

/-- Claim C6: for every well-formed partial sign vector, `cardinality()` is
`2^(length - |determined| - |undetermined|) * 3^|undetermined|` and equals the
number of sign vectors produced by the default `unpack()`. -/
theorem claim_C6_cardinality_unpack :
    ∀ X : PartialSignVector, WellFormed X →
      cardinality X =
          2 ^ (X.length - (determined_support X).card -
                (undetermined_support X).card)
            * 3 ^ (undetermined_support X).card ∧
        cardinality X = (unpack X).card := by
  intro X h
  refine ⟨rfl, ?_⟩
  have hinj : Set.InjOn to_sign_vector ↑(unpackAll X) := by
    intro p hp q hq heq
    rw [Finset.mem_coe] at hp hq
    have hsvp := is_sign_vector_unpackAll h.1 hp
    have hsvq := is_sign_vector_unpackAll h.1 hq
    simp only [to_sign_vector, if_pos hsvp, if_pos hsvq, Sum.inl.injEq,
      SignVector.mk.injEq] at heq
    obtain ⟨hlen, hpos, hneg⟩ := heq
    have hzero : p.zero_support = q.zero_support := by
      ext e
      by_cases he : e < X.length
      · rw [zero_iff_unpackAll h.1 hp he, zero_iff_unpackAll h.1 hq he,
          hneg, hpos]
      · exact iff_of_false
          ((unpackAll_spec h.1 hp).2.1 e (Nat.le_of_not_lt he)).2.1
          ((unpackAll_spec h.1 hq).2.1 e (Nat.le_of_not_lt he)).2.1
    exact PartialSignVector.ext
      (((unpackAll_spec h.1 hp).1).trans ((unpackAll_spec h.1 hq).1).symm)
      hneg hzero hpos
  rw [unpack, Finset.card_image_of_injOn hinj,
    show (unpackAll X).card =
        ∏ e ∈ Finset.range X.length, (admissibleSigns X e).length from
      card_unpackUpto X X.length]
  exact (prod_admissibleSigns X h).symm

theorem claim_C6_cardinality_unpack_witness :
    WellFormed (from_string "n*") ∧
      (cardinality (from_string "n*") =
          2 ^ ((from_string "n*").length -
                (determined_support (from_string "n*")).card -
                  (undetermined_support (from_string "n*")).card)
            * 3 ^ (undetermined_support (from_string "n*")).card ∧
        cardinality (from_string "n*") = (unpack (from_string "n*")).card) :=
  ⟨by decide, claim_C6_cardinality_unpack (from_string "n*") (by decide)⟩
